import Mathlib

/-!
Verification development for the call-transcript diarization pipeline in
src/test.py.  The definitions below are a shallow embedding of the scoring,
role-resolution, fallback-rendering and refinement-orchestration logic of that
file; theorems about them settle the behavioural claims of the specification.
External effects (HTTP transport, audio cropping) are modelled as explicit
parameters describing their observable outcome.
-/

namespace CallDiar

/-! ## Character and string utilities

Python operates on ordinary strings; we model the relevant operations
(lowercasing, substring test, whitespace split, word-boundary regex search)
directly on the character lists underlying Lean strings so that everything
reduces inside the kernel. -/

/-- The apostrophe character, built numerically (code point 39). -/
def apos : Char := Char.ofNat 39

/-- One-character string holding an apostrophe. -/
def aposS : String := String.singleton apos

/-- Glue two fragments with an apostrophe between them. -/
def ap (a b : String) : String := a ++ aposS ++ b

/-- Word character in the sense of the regex class backslash-w restricted to
ASCII (letters, digits, underscore); the transcripts handled by the tool are
ASCII text. -/
def isWordChar (c : Char) : Bool := c.isAlphanum || c == Char.ofNat 95

/-- Lowercase a string character-by-character, modelling Python str.lower on
ASCII input. -/
def lowerStr (s : String) : String := String.mk (s.data.map Char.toLower)

/-- Does the first list occur as a prefix of the second one. -/
def listStartsWith : List Char → List Char → Bool
  | [], _ => true
  | _ :: _, [] => false
  | p :: ps, t :: ts => (p == t) && listStartsWith ps ts

/-- Does the pattern occur as a contiguous sublist anywhere in the text,
modelling the Python substring operator `in`. -/
def occursIn (pat : List Char) : List Char → Bool
  | [] => listStartsWith pat []
  | c :: rest => listStartsWith pat (c :: rest) || occursIn pat rest

/-- Substring test on strings, modelling Python `pat in text`. -/
def containsSub (pat text : String) : Bool := occursIn pat.data text.data

/-- Was the previous character a word character (none means start of string). -/
def prevIsWord : Option Char → Bool
  | none => false
  | some c => isWordChar c

/-- Word boundary after a match that ends in a word character: the remaining
text must be empty or start with a non-word character. -/
def tailBoundary : List Char → Bool
  | [] => true
  | c :: _ => !(isWordChar c)

/-- A literal alternative `pat` of a regex of shape boundary-literal-boundary
matches at the current position: the previous character is not a word
character, `pat` is a prefix of the text, and a word boundary follows.  All
alternatives used below begin and end with word characters, for which this is
exactly the semantics of the backslash-b anchors. -/
def hitHere (pat : List Char) (prev : Option Char) (text : List Char) : Bool :=
  !(prevIsWord prev) && listStartsWith pat text && tailBoundary (List.drop pat.length text)

/-- Scan the text for a boundary-anchored occurrence of the literal `pat`,
carrying the previously consumed character. -/
def reSearchFrom (pat : List Char) : Option Char → List Char → Bool
  | prev, [] => hitHere pat prev []
  | prev, c :: rest => hitHere pat prev (c :: rest) || reSearchFrom pat (some c) rest

/-- Python re.search for the fixed patterns of src/test.py: each pattern is a
backslash-b anchored alternation of literal phrases, so the search succeeds
exactly when some alternative occurs with word boundaries on both sides. -/
def reSearchAlts (alts : List String) (text : String) : Bool :=
  alts.any (fun a => reSearchFrom a.data none text.data)

/-- Split a character list on runs of whitespace, dropping empty pieces,
modelling Python str.split with no arguments. -/
def wsSplit : List Char → List Char → List (List Char)
  | cur, [] => if cur.isEmpty then [] else [cur.reverse]
  | cur, c :: rest =>
    if c.isWhitespace then
      if cur.isEmpty then wsSplit [] rest else cur.reverse :: wsSplit [] rest
    else wsSplit (c :: cur) rest

/-- Count the whitespace-separated words of a string: len(text.split()). -/
def countWords (s : String) : Nat := (wsSplit [] s.data).length

/-- Parse a list of decimal digits as a natural number, modelling int() on the
well-formed speaker labels the pipeline produces. -/
def parseDigits (l : List Char) : Option Nat :=
  if l.isEmpty then none
  else
    l.foldl
      (fun acc c =>
        match acc with
        | none => none
        | some n => if c.isDigit then some (n * 10 + (c.toNat - 48)) else none)
      (some 0)

/-- Cluster id of a segment: int(segment["speaker"].split()[-1]) in
src/test.py.  The pipeline always passes labels of shape "SPEAKER n"; on such
labels this returns n (malformed labels, on which Python would raise, are
totalised to 0). -/
def speakerNum (s : String) : Nat :=
  match (wsSplit [] s.data).getLast? with
  | some w => (parseDigits w).getD 0
  | none => 0

/-- Join lines with newline separators, modelling "\n".join(lines). -/
def joinLines : List String → String
  | [] => ""
  | [s] => s
  | s :: rest => s ++ "\n" ++ joinLines rest

/-! ## Data model

One transcript segment as produced by run_diarization (src/test.py lines
171-179): the raw speaker label, the formatted start time and the text. -/

/-- One entry of transcript_data. -/
structure Seg where
  speaker : String
  start_time : String
  text : String
deriving DecidableEq

/-! ## Lexicons and regex patterns (src/test.py lines 278-309) -/

/-- customer_phrases, src/test.py lines 279-285. -/
def customer_phrases : List String :=
  ["lost", "my card", "my account", "i want", "i need", "my name is",
   ap "i" "m trying to", "i was", "i have a", "i lost", ap "i can" "t", ap "i don" "t",
   "help me", "my credit card", "my number", "my phone", "my email",
   "cancel", "stolen", "fraud", "charge", "payment", "i paid", "i bought",
   "i ordered", "my order", "refund", "my balance", "my statement"]

/-- agent_phrases, src/test.py lines 287-295. -/
def agent_phrases : List String :=
  ["can you provide", "what is your", "thank you for", "how can i help",
   "may i have", "could you confirm", ap "i" "ll need to verify", "for security purposes",
   "is there anything else", "i understand", "our records", "our system",
   "let me check", "according to", ap "i" "ve checked", "i can see", "may i have your",
   "can i get your", ap "i" "ll assist you", "please hold", "let me pull up",
   "is that correct", "would you like", "thank you for calling", "thank you for your patience",
   "is there anything else i can help with", "have i resolved", "card ending in"]

/-- Cartesian concatenation of phrase fragments, used to expand the regex
alternations into their finite lists of literal alternatives. -/
def crossCat (xs ys : List String) : List String :=
  (xs.map (fun x => ys.map (fun y => x ++ y))).flatten

/-- customer_patterns, src/test.py lines 298-302, with each boundary-anchored
alternation expanded into its literal alternatives. -/
def customer_pattern_alts : List (List String) :=
  [crossCat ["my ", "our "] ["card", "account", "order", "payment"],
   crossCat ["i "] ["lost", "need", "want", ap "can" "t", ap "don" "t", "have a", "would like", "am trying"],
   crossCat ["my "] ["name", "email", "phone", "address", "balance"]]

/-- agent_patterns, src/test.py lines 304-309, expanded likewise. -/
def agent_pattern_alts : List (List String) :=
  [crossCat (crossCat ["could ", "may ", "can "] ["you ", "i "]) ["have", "get", "confirm", "verify"],
   crossCat ["for "] ["security purposes", "verification purposes", "identification purposes"],
   crossCat ["our ", "the "] ["records", "system", "policy", "team"],
   crossCat [ap "i" "ll ", "i will "] ["assist", "help", "check", "verify", "need"]]

/-! ## Score table (src/test.py lines 276, 311-315)

speaker_scores is a Python dict keyed by cluster id; a dict is its insertion
ordered key list together with the stored values, so we model it as the key
list (in first-appearance order) plus a total valuation function. -/

/-- Evidence tally of one cluster. -/
structure Scores where
  customer : Nat
  agent : Nat
deriving DecidableEq

/-- speaker_scores: insertion-ordered keys plus the per-key tallies. -/
structure ScoreTable where
  keys : List Nat
  val : Nat → Scores

/-- Cluster ids in order of first appearance, as built by the initialisation
loop of src/test.py lines 312-315. -/
def firstAppearanceKeys (l : List Nat) : List Nat :=
  l.foldl (fun acc s => if s ∈ acc then acc else acc ++ [s]) []

/-- Cluster ids of a transcript in first-appearance order. -/
def clusterKeys (td : List Seg) : List Nat :=
  firstAppearanceKeys (td.map (fun s => speakerNum s.speaker))

/-- Number of distinct clusters appearing in a transcript. -/
def clusterCount (td : List Seg) : Nat := (clusterKeys td).length

/-- The score table with all tallies at zero, keyed by the clusters of the
transcript (src/test.py lines 312-315). -/
def initTable (td : List Seg) : ScoreTable :=
  ScoreTable.mk (clusterKeys td) (fun _ => Scores.mk 0 0)

/-- speaker_scores[k]["customer"] += w. -/
def bumpCustomer (t : ScoreTable) (k w : Nat) : ScoreTable :=
  ScoreTable.mk t.keys
    (fun x => if x = k then Scores.mk ((t.val x).customer + w) ((t.val x).agent) else t.val x)

/-- speaker_scores[k]["agent"] += w. -/
def bumpAgent (t : ScoreTable) (k w : Nat) : ScoreTable :=
  ScoreTable.mk t.keys
    (fun x => if x = k then Scores.mk ((t.val x).customer) ((t.val x).agent + w) else t.val x)

/-! ## RoleScorer (src/test.py lines 317-363) -/

/-- Loop adding `w` to the customer tally of cluster `k` for every list
element satisfying `pred`, the shape of the two customer-evidence loops of
src/test.py lines 322-329. -/
def condBumpC {α : Type} (pred : α → Bool) (k w : Nat) : ScoreTable → List α → ScoreTable
  | t, [] => t
  | t, p :: ps => condBumpC pred k w (if pred p then bumpCustomer t k w else t) ps

/-- Loop adding `w` to the agent tally of cluster `k` for every list element
satisfying `pred`, the shape of the two agent-evidence loops of src/test.py
lines 331-338. -/
def condBumpA {α : Type} (pred : α → Bool) (k w : Nat) : ScoreTable → List α → ScoreTable
  | t, [] => t
  | t, p :: ps => condBumpA pred k w (if pred p then bumpAgent t k w else t) ps

/-- Text-evidence pass for one segment (src/test.py lines 318-338): +1
customer per matching customer phrase, +2 customer per matching customer
pattern, +1 agent per matching agent phrase, +2 agent per matching agent
pattern, all on the lowercased text, credited to the segment's cluster. -/
def scoreSegment (t : ScoreTable) (s : Seg) : ScoreTable :=
  let text := lowerStr s.text
  let k := speakerNum s.speaker
  condBumpA (fun p => reSearchAlts p text) k 2
    (condBumpA (fun p => containsSub p text) k 1
      (condBumpC (fun p => reSearchAlts p text) k 2
        (condBumpC (fun p => containsSub p text) k 1 t customer_phrases)
        customer_pattern_alts)
      agent_phrases)
    agent_pattern_alts

/-- First pass over all segments (src/test.py lines 318-338). -/
def scorePass1 (t : ScoreTable) (td : List Seg) : ScoreTable :=
  td.foldl scoreSegment t

/-- Positional bonus (src/test.py lines 342-349): if the transcript is
nonempty, the cluster of the first segment and the cluster of the last segment
each get +1 agent. -/
def scorePositional (t : ScoreTable) : List Seg → ScoreTable
  | [] => t
  | s :: rest =>
    bumpAgent (bumpAgent t (speakerNum s.speaker) 1)
      (speakerNum (rest.getLastD s).speaker) 1

/-- Condition of the adjacency bonus for a consecutive pair (src/test.py line
359): the earlier text, lowercased, ends with a question mark and the two
segments belong to different clusters. -/
def adjCond (p : Seg × Seg) : Bool :=
  (lowerStr p.1.text).data.getLast? == some (Char.ofNat 63)
    && (speakerNum p.1.speaker != speakerNum p.2.speaker)

/-- Adjacency update for one consecutive pair (src/test.py lines 359-363). -/
def adjStep (t : ScoreTable) (p : Seg × Seg) : ScoreTable :=
  if adjCond p then bumpCustomer (bumpAgent t (speakerNum p.1.speaker) 1) (speakerNum p.2.speaker) 1
  else t

/-- Adjacency pass over all consecutive pairs (src/test.py lines 352-363). -/
def scoreAdjacency (t : ScoreTable) (td : List Seg) : ScoreTable :=
  (td.zip td.tail).foldl adjStep t

/-- The complete score table built by retry_with_modified_prompt before role
resolution (src/test.py lines 276-363). -/
def computeSpeakerScores (td : List Seg) : ScoreTable :=
  scoreAdjacency (scorePositional (scorePass1 (initTable td) td) td) td

/-! ## RoleResolver (src/test.py lines 365-407) -/

/-- One step of the primary pass (src/test.py lines 366-372): assign customer
if the customer tally strictly exceeds the agent tally and no customer is
chosen yet, otherwise assign agent if the agent tally strictly exceeds the
customer tally and no agent is chosen yet. -/
def primaryStep (f : Nat → Scores) (acc : Option Nat × Option Nat) (k : Nat) :
    Option Nat × Option Nat :=
  if (f k).customer > (f k).agent ∧ acc.1 = none then (some k, acc.2)
  else if (f k).agent > (f k).customer ∧ acc.2 = none then (acc.1, some k)
  else acc

/-- Primary pass over the clusters in dict order (src/test.py lines 366-372). -/
def primaryPass (t : ScoreTable) : Option Nat × Option Nat :=
  t.keys.foldl (primaryStep t.val) (none, none)

/-- One step of the running-maximum scan of the max-score fallback
(src/test.py lines 377-390): a cluster different from the excluded one whose
score strictly exceeds the best seen so far becomes the new candidate. -/
def pickStep (sc : Nat → Nat) (excl : Option Nat) (b : Int × Option Nat) (k : Nat) :
    Int × Option Nat :=
  if some k ≠ excl ∧ (sc k : Int) > b.1 then ((sc k : Int), some k) else b

/-- The cluster selected by the running-maximum scan, starting from best score
-1 and no candidate (src/test.py lines 377-390). -/
def pickMax (t : ScoreTable) (sc : Nat → Nat) (excl : Option Nat) : Option Nat :=
  (t.keys.foldl (pickStep sc excl) ((-1 : Int), none)).2

/-- Max-score fallback (src/test.py lines 374-390): fill a still-missing
customer by the scan over customer tallies excluding the chosen agent, then
fill a still-missing agent by the scan over agent tallies excluding the (by
then possibly updated) chosen customer. -/
def maxScoreFallback (t : ScoreTable) (lc la : Option Nat) : Option Nat × Option Nat :=
  if lc = none ∨ la = none then
    let lc2 := if lc = none then pickMax t (fun k => (t.val k).customer) la else lc
    let la2 := if la = none then pickMax t (fun k => (t.val k).agent) lc2 else la
    (lc2, la2)
  else (lc, la)

/-- Insert a (cluster, word count) pair into a count-sorted list, before the
first strictly larger count; equal counts keep their original relative order,
matching the stability of Python sorted. -/
def insertByCount (p : Nat × Nat) : List (Nat × Nat) → List (Nat × Nat)
  | [] => [p]
  | q :: rest => if p.2 ≤ q.2 then p :: q :: rest else q :: insertByCount p rest

/-- Stable sort of (cluster, word count) pairs by ascending count, modelling
sorted(speaker_words.items(), key=lambda x: x[1]) (src/test.py line 403). -/
def sortByCount : List (Nat × Nat) → List (Nat × Nat)
  | [] => []
  | p :: rest => insertByCount p (sortByCount rest)

/-- Add words to a cluster's tally inside the insertion-ordered association
list modelling the speaker_words dict (src/test.py lines 396-400). -/
def addWords (acc : List (Nat × Nat)) (k w : Nat) : List (Nat × Nat) :=
  if acc.any (fun p => p.1 == k) then
    acc.map (fun p => if p.1 == k then (p.1, p.2 + w) else p)
  else acc ++ [(k, w)]

/-- Per-cluster word counts of the transcript in first-appearance order
(src/test.py lines 395-400). -/
def speakerWords (td : List Seg) : List (Nat × Nat) :=
  td.foldl (fun acc s => addWords acc (speakerNum s.speaker) (countWords s.text)) []

/-- Word-count fallback (src/test.py lines 393-407): with at least two
clusters, the fewest-words cluster becomes customer and the most-words cluster
becomes agent; otherwise both stay unresolved. -/
def wordCountFallback (td : List Seg) : Option Nat × Option Nat :=
  let sorted := sortByCount (speakerWords td)
  if 2 ≤ sorted.length then (some (sorted.headD (0, 0)).1, some ((sorted.getLastD (0, 0)).1))
  else (none, none)

/-- State of the resolution after the primary pass and the max-score fallback
(src/test.py lines 365-390). -/
def afterMaxScore (td : List Seg) : Option Nat × Option Nat :=
  let t := computeSpeakerScores td
  let p := primaryPass t
  maxScoreFallback t p.1 p.2

/-- Full resolution chain of retry_with_modified_prompt (src/test.py lines
365-407): primary pass, then max-score fallback, then - only when both roles
are still unresolved - the word-count fallback. -/
def likelyRoles (td : List Seg) : Option Nat × Option Nat :=
  match afterMaxScore td with
  | (none, none) => wordCountFallback td
  | q => q

/-! ## Fallback renderers (src/test.py lines 256-260, 486-519) -/

/-- One rendered transcript line, the f-string shape used by all fallback
renderers of src/test.py. -/
def roleLine (role : String) (s : Seg) : String :=
  role ++ " at " ++ s.start_time ++ ": " ++ s.text

/-- The generic fallback transcript used when attempt 1 fails (src/test.py
lines 256-260 and 263-267): original speaker labels, no role resolution. -/
def genericFallback (td : List Seg) : String :=
  joinLines (td.map (fun s => roleLine s.speaker s))

/-- The per-segment lines of create_fallback_transcript (src/test.py lines
491-516).  With no resolved roles at all, odd clusters are labelled CUSTOMER
and even ones AGENT; otherwise the resolved customer and agent clusters get
their role labels and any remaining cluster is labelled SPEAKER. -/
def fallbackLines (td : List Seg) (lc la : Option Nat) : List String :=
  if lc = none ∧ la = none then
    td.map (fun s =>
      roleLine (if speakerNum s.speaker % 2 = 1 then "CUSTOMER" else "AGENT") s)
  else
    td.map (fun s =>
      roleLine
        (if some (speakerNum s.speaker) = lc then "CUSTOMER"
         else if some (speakerNum s.speaker) = la then "AGENT"
         else if lc = none then "CUSTOMER"
         else if la = none then "AGENT"
         else "SPEAKER") s)

/-- create_fallback_transcript (src/test.py lines 486-519). -/
def create_fallback_transcript (td : List Seg) (lc la : Option Nat) : String :=
  joinLines (fallbackLines td lc la)

/-! ## RefinementOrchestrator (src/test.py lines 184-267 and 460-484)

The observable outcome of one HTTP call to the refinement service: either a
response with a status code and the text extracted from the JSON body (none
when extraction raises, which the caller catches), or a transport failure
raised by the request itself. -/

/-- Outcome of one requests.post call together with body extraction. -/
inductive HttpOutcome where
  | success (status : Nat) (body : Option String)
  | failure
deriving DecidableEq

/-- retry_with_modified_prompt (src/test.py lines 269-484), parameterised by
the outcome of its HTTP call: a 200 response with extractable text is returned
as is (no re-validation); any other status, a body-extraction error or a
transport failure falls back to create_fallback_transcript with the locally
resolved roles. -/
def retry_with_modified_prompt (td : List Seg) (resp2 : HttpOutcome) : String :=
  let roles := likelyRoles td
  match resp2 with
  | HttpOutcome.success status body =>
    if status = 200 then
      match body with
      | some text => text
      | none => create_fallback_transcript td roles.1 roles.2
    else create_fallback_transcript td roles.1 roles.2
  | HttpOutcome.failure => create_fallback_transcript td roles.1 roles.2

/-- process_transcript_with_llm (src/test.py lines 184-267), parameterised by
the outcomes of the attempt-1 call and of the attempt-2 call made inside
retry_with_modified_prompt.  A 200 response whose text contains both role
tokens is accepted; a 200 response missing a token triggers the retry; a
non-200 status, a body-extraction error or a transport failure returns the
generic speaker-labelled fallback. -/
def process_transcript_with_llm (td : List Seg) (resp1 resp2 : HttpOutcome) : String :=
  match resp1 with
  | HttpOutcome.success status body =>
    if status = 200 then
      match body with
      | some text =>
        if containsSub "AGENT" text && containsSub "CUSTOMER" text then text
        else retry_with_modified_prompt td resp2
      | none => genericFallback td
    else genericFallback td
  | HttpOutcome.failure => genericFallback td

/-! ## EmbeddingExtractor (src/test.py lines 105-124) -/

/-- segment_embedding (src/test.py lines 105-124), with times as rationals and
the audio crop plus embedding model abstracted as a `crop` map from the start
and (clamped) end time to an optional vector, none modelling any exception of
the try block.  The end time is clamped to min(duration, end) before cropping;
on failure a 192-dimensional zero vector is returned. -/
def segment_embedding (start endT duration : ℚ)
    (crop : ℚ → ℚ → Option (List ℚ)) : List ℚ :=
  match crop start (min duration endT) with
  | some v => v
  | none => List.replicate 192 0

/-! ## Reference definitions shaped after the specification text

These definitions follow the wording of the specification claims rather than
the code; the theorems below compare them with the embedded code. -/

/-- Customer points one segment earns from rules 1-2 of the specification:
+1 per customer-lexicon phrase present as a substring of the lowercased text,
+2 per matching customer regex pattern. -/
def segCustomerPoints (text : String) : Nat :=
  customer_phrases.countP (fun p => containsSub p (lowerStr text))
    + 2 * customer_pattern_alts.countP (fun p => reSearchAlts p (lowerStr text))

/-- Agent points one segment earns from rules 1-2 of the specification. -/
def segAgentPoints (text : String) : Nat :=
  agent_phrases.countP (fun p => containsSub p (lowerStr text))
    + 2 * agent_pattern_alts.countP (fun p => reSearchAlts p (lowerStr text))

/-- Lexical and pattern evidence a cluster collects over the whole transcript:
the sum of the per-segment points of its segments. -/
def textCustomerSum (td : List Seg) (x : Nat) : Nat :=
  (td.map (fun s => if speakerNum s.speaker = x then segCustomerPoints s.text else 0)).sum

/-- Agent-side lexical and pattern evidence of a cluster. -/
def textAgentSum (td : List Seg) (x : Nat) : Nat :=
  (td.map (fun s => if speakerNum s.speaker = x then segAgentPoints s.text else 0)).sum

/-- Positional bonus of rule 3: +1 agent for the cluster of the first segment
and +1 agent for the cluster of the last segment. -/
def firstLastAgentPoints (td : List Seg) (x : Nat) : Nat :=
  match td with
  | [] => 0
  | s :: rest =>
    (if speakerNum s.speaker = x then 1 else 0)
      + (if speakerNum (rest.getLastD s).speaker = x then 1 else 0)

/-- Adjacency bonus of rule 4, agent side: one point per consecutive pair in
different clusters whose earlier text ends with a question mark and whose
earlier cluster is `x`. -/
def adjAgentPoints (pairs : List (Seg × Seg)) (x : Nat) : Nat :=
  pairs.countP (fun p => adjCond p && (speakerNum p.1.speaker == x))

/-- Adjacency bonus of rule 4, customer side: one point per qualifying pair
whose later cluster is `x`. -/
def adjCustomerPoints (pairs : List (Seg × Seg)) (x : Nat) : Nat :=
  pairs.countP (fun p => adjCond p && (speakerNum p.2.speaker == x))

/-- The reference score table described by the four scoring rules of the
specification. -/
def refScores (td : List Seg) (x : Nat) : Scores :=
  Scores.mk
    (textCustomerSum td x + adjCustomerPoints (td.zip td.tail) x)
    (textAgentSum td x + firstLastAgentPoints td x + adjAgentPoints (td.zip td.tail) x)

/-- One step of the primary pass as the specification words it: a visited
cluster is assigned customer if its customer tally exceeds its agent tally and
no customer is chosen yet, and assigned agent if its agent tally exceeds its
customer tally and no agent is chosen yet. -/
def primaryStepClaim (f : Nat → Scores) (acc : Option Nat × Option Nat) (k : Nat) :
    Option Nat × Option Nat :=
  ((if (f k).customer > (f k).agent ∧ acc.1 = none then some k else acc.1),
   (if (f k).agent > (f k).customer ∧ acc.2 = none then some k else acc.2))

/-- Primary pass following the specification rules, visiting the clusters in
the dict's first-appearance order. -/
def primaryPassClaim (t : ScoreTable) : Option Nat × Option Nat :=
  t.keys.foldl (primaryStepClaim t.val) (none, none)

/-- Insert into an ascending list of cluster ids. -/
def insertAsc (k : Nat) : List Nat → List Nat
  | [] => [k]
  | x :: xs => if k ≤ x then k :: x :: xs else x :: insertAsc k xs

/-- Sort cluster ids ascending. -/
def sortAsc (l : List Nat) : List Nat := l.foldr insertAsc []

/-- Primary pass as claimed by the specification: the same rules, but visiting
the clusters in ascending cluster-id order. -/
def primaryPassAsc (t : ScoreTable) : Option Nat × Option Nat :=
  (sortAsc t.keys).foldl (primaryStepClaim t.val) (none, none)

/-- First cluster attaining the maximum of `sc` over the given key list;
none on an empty list. -/
def pickByMaxFirst (ks : List Nat) (sc : Nat → Nat) : Option Nat :=
  match ks with
  | [] => none
  | k :: rest => some (rest.foldl (fun best k2 => if sc k2 > sc best then k2 else best) k)

/-- Keys of the table eligible for a role: those not equal to the cluster
already holding the other role. -/
def eligKeys (t : ScoreTable) (excl : Option Nat) : List Nat :=
  t.keys.filter (fun k => some k != excl)

/-- Max-score fallback as the specification words it, with ties broken by the
first-appearing eligible cluster: each missing role goes to the eligible
cluster with the highest score for that role. -/
def maxScoreFallbackClaim (t : ScoreTable) (lc la : Option Nat) : Option Nat × Option Nat :=
  if lc = none ∨ la = none then
    let lc2 := if lc = none then pickByMaxFirst (eligKeys t la) (fun k => (t.val k).customer) else lc
    let la2 := if la = none then pickByMaxFirst (eligKeys t lc2) (fun k => (t.val k).agent) else la
    (lc2, la2)
  else (lc, la)

/-- Max-score fallback as literally claimed by the specification: ties broken
by the lowest cluster id (realised by scanning the eligible keys in ascending
order). -/
def maxScoreFallbackSpec (t : ScoreTable) (lc la : Option Nat) : Option Nat × Option Nat :=
  if lc = none ∨ la = none then
    let lc2 := if lc = none then pickByMaxFirst (sortAsc (eligKeys t la)) (fun k => (t.val k).customer) else lc
    let la2 := if la = none then pickByMaxFirst (sortAsc (eligKeys t lc2)) (fun k => (t.val k).agent) else la
    (lc2, la2)
  else (lc, la)

/-! ## Concrete transcripts used in counterexamples and witnesses -/

/-- Two clusters, appearing in the order 2, 1, both with dominant customer
evidence (phrase plus pattern, 3 customer points each, 1 positional agent
point each). -/
def td4 : List Seg :=
  [Seg.mk "SPEAKER 2" "0:00:00" "My account", Seg.mk "SPEAKER 1" "0:00:04" "My card"]

/-- Two clusters, appearing in the order 2, 1, with tied tallies (1, 1) in
each cluster, so the primary pass assigns nothing. -/
def td5 : List Seg :=
  [Seg.mk "SPEAKER 2" "0:00:00" "It got lost", Seg.mk "SPEAKER 1" "0:00:05" "Refund"]

/-- Two neutral segments in two clusters. -/
def td1 : List Seg :=
  [Seg.mk "SPEAKER 1" "0:00:00" "hello there", Seg.mk "SPEAKER 2" "0:00:06" "hi"]

/-- Two clusters with clear customer and agent evidence respectively. -/
def td3 : List Seg :=
  [Seg.mk "SPEAKER 1" "0:00:00" "My card", Seg.mk "SPEAKER 2" "0:00:04" "Can I get your name"]

/-- Three clusters; cluster 3 is neither customer nor agent. -/
def td10 : List Seg :=
  [Seg.mk "SPEAKER 1" "0:00:00" "alpha", Seg.mk "SPEAKER 2" "0:00:03" "beta",
   Seg.mk "SPEAKER 3" "0:00:06" "gamma"]

/-! ## Score-table lemmas -/

/-- Value of the table after a customer bump. -/
theorem bumpCustomer_val (t : ScoreTable) (k w x : Nat) :
    (bumpCustomer t k w).val x =
      if x = k then Scores.mk ((t.val x).customer + w) ((t.val x).agent) else t.val x := rfl

/-- Value of the table after an agent bump. -/
theorem bumpAgent_val (t : ScoreTable) (k w x : Nat) :
    (bumpAgent t k w).val x =
      if x = k then Scores.mk ((t.val x).customer) ((t.val x).agent + w) else t.val x := rfl

/-- A conditional-customer-bump loop adds `w` times the number of matching
list elements to cluster `k` and nothing anywhere else. -/
theorem condBumpC_val {α : Type} (pred : α → Bool) (k w : Nat) :
    ∀ (ps : List α) (t : ScoreTable) (x : Nat),
      (condBumpC pred k w t ps).val x =
        if x = k then
          Scores.mk ((t.val x).customer + w * ps.countP pred) ((t.val x).agent)
        else t.val x := by
  intro ps
  induction ps with
  | nil =>
    intro t x
    simp [condBumpC]
  | cons p rest ih =>
    intro t x
    simp only [condBumpC]
    rw [ih]
    by_cases hp : pred p
    · by_cases hx : x = k
      · subst hx
        simp [hp, bumpCustomer_val, List.countP_cons, Scores.mk.injEq]
        ring
      · simp [hp, hx, bumpCustomer_val]
    · by_cases hx : x = k
      · subst hx
        simp [hp, List.countP_cons]
      · simp [hp, hx]

/-- A conditional-agent-bump loop adds `w` times the number of matching list
elements to cluster `k` and nothing anywhere else. -/
theorem condBumpA_val {α : Type} (pred : α → Bool) (k w : Nat) :
    ∀ (ps : List α) (t : ScoreTable) (x : Nat),
      (condBumpA pred k w t ps).val x =
        if x = k then
          Scores.mk ((t.val x).customer) ((t.val x).agent + w * ps.countP pred)
        else t.val x := by
  intro ps
  induction ps with
  | nil =>
    intro t x
    simp [condBumpA]
  | cons p rest ih =>
    intro t x
    simp only [condBumpA]
    rw [ih]
    by_cases hp : pred p
    · by_cases hx : x = k
      · subst hx
        simp [hp, bumpAgent_val, List.countP_cons, Scores.mk.injEq]
        ring
      · simp [hp, hx, bumpAgent_val]
    · by_cases hx : x = k
      · subst hx
        simp [hp, List.countP_cons]
      · simp [hp, hx]

/-- Effect of the per-segment text-evidence pass on the table values. -/
theorem scoreSegment_val (t : ScoreTable) (s : Seg) (x : Nat) :
    (scoreSegment t s).val x =
      if x = speakerNum s.speaker then
        Scores.mk ((t.val x).customer + segCustomerPoints s.text)
          ((t.val x).agent + segAgentPoints s.text)
      else t.val x := by
  unfold scoreSegment segCustomerPoints segAgentPoints
  rw [condBumpA_val, condBumpA_val, condBumpC_val, condBumpC_val]
  by_cases hx : x = speakerNum s.speaker
  · simp [hx, Scores.mk.injEq]
    constructor <;> ring
  · simp [hx]

/-- Effect of the first pass over all segments on the table values. -/
theorem scorePass1_val :
    ∀ (td : List Seg) (t : ScoreTable) (x : Nat),
      (scorePass1 t td).val x =
        Scores.mk ((t.val x).customer + textCustomerSum td x)
          ((t.val x).agent + textAgentSum td x) := by
  intro td
  induction td with
  | nil =>
    intro t x
    simp [scorePass1, textCustomerSum, textAgentSum]
  | cons s rest ih =>
    intro t x
    have hstep : scorePass1 t (s :: rest) = scorePass1 (scoreSegment t s) rest := rfl
    rw [hstep, ih, scoreSegment_val]
    unfold textCustomerSum textAgentSum
    simp only [List.map_cons, List.sum_cons]
    by_cases hx : x = speakerNum s.speaker
    · subst hx
      simp [Scores.mk.injEq]
      constructor <;> ring
    · have hx2 : ¬(speakerNum s.speaker = x) := fun h => hx h.symm
      simp [hx, hx2]

/-- Effect of the positional pass on the table values. -/
theorem scorePositional_val (t : ScoreTable) (td : List Seg) (x : Nat) :
    (scorePositional t td).val x =
      Scores.mk ((t.val x).customer) ((t.val x).agent + firstLastAgentPoints td x) := by
  cases td with
  | nil => simp [scorePositional, firstLastAgentPoints]
  | cons s rest =>
    simp only [scorePositional, firstLastAgentPoints]
    rw [bumpAgent_val, bumpAgent_val]
    generalize speakerNum s.speaker = a1
    generalize speakerNum (rest.getLastD s).speaker = a2
    by_cases h1 : x = a1
    · subst h1
      by_cases h2 : x = a2
      · subst h2
        simp [Scores.mk.injEq]
      · have n2 : ¬(a2 = x) := fun h => h2 h.symm
        simp [h2, n2, Scores.mk.injEq]
    · have n1 : ¬(a1 = x) := fun h => h1 h.symm
      by_cases h2 : x = a2
      · subst h2
        simp [h1, n1, Scores.mk.injEq]
      · have n2 : ¬(a2 = x) := fun h => h2 h.symm
        simp [h1, n1, h2, n2]

/-- Effect of the adjacency fold on the table values. -/
theorem adjFold_val :
    ∀ (pairs : List (Seg × Seg)) (t : ScoreTable) (x : Nat),
      ((pairs.foldl adjStep t).val x) =
        Scores.mk ((t.val x).customer + adjCustomerPoints pairs x)
          ((t.val x).agent + adjAgentPoints pairs x) := by
  intro pairs
  induction pairs with
  | nil =>
    intro t x
    simp [adjCustomerPoints, adjAgentPoints]
  | cons p rest ih =>
    intro t x
    simp only [List.foldl_cons]
    rw [ih]
    simp only [adjStep, adjCustomerPoints, adjAgentPoints, List.countP_cons]
    by_cases hc : adjCond p
    · rw [if_pos hc]
      rw [bumpCustomer_val, bumpAgent_val]
      simp only [hc, Bool.true_and]
      generalize speakerNum (p.1).speaker = a1
      generalize speakerNum (p.2).speaker = a2
      by_cases h1 : x = a1
      · subst h1
        by_cases h2 : x = a2
        · subst h2
          simp [Scores.mk.injEq]
          omega
        · have n2 : ¬(a2 = x) := fun h => h2 h.symm
          simp [h2, n2, Scores.mk.injEq]
          omega
      · have n1 : ¬(a1 = x) := fun h => h1 h.symm
        by_cases h2 : x = a2
        · subst h2
          simp [h1, n1, Scores.mk.injEq]
          omega
        · have n2 : ¬(a2 = x) := fun h => h2 h.symm
          simp [h1, n1, h2, n2, Scores.mk.injEq]
    · rw [if_neg (by simp [hc])]
      simp [hc]

/-- Claim C7: the score table built by the first pass, the positional bonus
and the adjacency bonus equals, at every cluster, the reference defined by the
four scoring rules of the specification. -/
theorem C7_scorer_equals_reference (td : List Seg) (x : Nat) :
    (computeSpeakerScores td).val x = refScores td x := by
  unfold computeSpeakerScores scoreAdjacency refScores
  rw [adjFold_val, scorePositional_val, scorePass1_val]
  simp [initTable, Scores.mk.injEq]

/-! ## Key-list lemmas -/

/-- Customer-bump loops leave the key list unchanged. -/
theorem condBumpC_keys {α : Type} (pred : α → Bool) (k w : Nat) :
    ∀ (ps : List α) (t : ScoreTable), (condBumpC pred k w t ps).keys = t.keys := by
  intro ps
  induction ps with
  | nil => intro t; rfl
  | cons p rest ih =>
    intro t
    simp only [condBumpC]
    rw [ih]
    by_cases hp : pred p
    · simp [hp, bumpCustomer]
    · simp [hp]

/-- Agent-bump loops leave the key list unchanged. -/
theorem condBumpA_keys {α : Type} (pred : α → Bool) (k w : Nat) :
    ∀ (ps : List α) (t : ScoreTable), (condBumpA pred k w t ps).keys = t.keys := by
  intro ps
  induction ps with
  | nil => intro t; rfl
  | cons p rest ih =>
    intro t
    simp only [condBumpA]
    rw [ih]
    by_cases hp : pred p
    · simp [hp, bumpAgent]
    · simp [hp]

/-- The per-segment pass leaves the key list unchanged. -/
theorem scoreSegment_keys (t : ScoreTable) (s : Seg) : (scoreSegment t s).keys = t.keys := by
  unfold scoreSegment
  rw [condBumpA_keys, condBumpA_keys, condBumpC_keys, condBumpC_keys]

/-- The first pass leaves the key list unchanged. -/
theorem scorePass1_keys :
    ∀ (td : List Seg) (t : ScoreTable), (scorePass1 t td).keys = t.keys := by
  intro td
  induction td with
  | nil => intro t; rfl
  | cons s rest ih =>
    intro t
    have hstep : scorePass1 t (s :: rest) = scorePass1 (scoreSegment t s) rest := rfl
    rw [hstep, ih, scoreSegment_keys]

/-- The positional pass leaves the key list unchanged. -/
theorem scorePositional_keys (t : ScoreTable) (td : List Seg) :
    (scorePositional t td).keys = t.keys := by
  cases td with
  | nil => rfl
  | cons s rest => rfl

/-- The adjacency fold leaves the key list unchanged. -/
theorem adjFold_keys :
    ∀ (pairs : List (Seg × Seg)) (t : ScoreTable),
      ((pairs.foldl adjStep t).keys) = t.keys := by
  intro pairs
  induction pairs with
  | nil => intro t; rfl
  | cons p rest ih =>
    intro t
    simp only [List.foldl_cons]
    rw [ih]
    unfold adjStep
    by_cases hc : adjCond p
    · rw [if_pos hc]; rfl
    · rw [if_neg hc]

/-- The complete scorer keys its table by the clusters in first-appearance
order. -/
theorem computeSpeakerScores_keys (td : List Seg) :
    (computeSpeakerScores td).keys = clusterKeys td := by
  unfold computeSpeakerScores scoreAdjacency
  rw [adjFold_keys, scorePositional_keys, scorePass1_keys]
  rfl

/-- First-appearance key extraction never repeats a key. -/
theorem firstAppearanceKeys_nodup (l : List Nat) : (firstAppearanceKeys l).Nodup := by
  have h : ∀ (m : List Nat) (acc : List Nat), acc.Nodup →
      (m.foldl (fun acc2 s => if s ∈ acc2 then acc2 else acc2 ++ [s]) acc).Nodup := by
    intro m
    induction m with
    | nil => intro acc ha; exact ha
    | cons s rest ih =>
      intro acc ha
      simp only [List.foldl_cons]
      by_cases hs : s ∈ acc
      · rw [if_pos hs]; exact ih acc ha
      · rw [if_neg hs]
        refine ih _ ?_
        simp [List.nodup_append, ha, hs]
  exact h l [] List.nodup_nil

/-! ## Resolution lemmas -/

/-- The three possible outcomes of one primary-pass step. -/
theorem primaryStep_cases (f : Nat → Scores) (acc : Option Nat × Option Nat) (k : Nat) :
    primaryStep f acc k = (some k, acc.2) ∨ primaryStep f acc k = (acc.1, some k)
      ∨ primaryStep f acc k = acc := by
  unfold primaryStep
  split_ifs <;> simp

/-- Folding the primary step over a duplicate-free key list, starting from an
accumulator whose chosen clusters are outside the list and distinct, yields
distinct clusters whenever both roles end up assigned. -/
theorem primary_fold_distinct (f : Nat → Scores) :
    ∀ (l : List Nat), l.Nodup → ∀ (acc : Option Nat × Option Nat),
      (∀ c, acc.1 = some c → c ∉ l) → (∀ a, acc.2 = some a → a ∉ l) →
      (∀ c a, acc.1 = some c → acc.2 = some a → c ≠ a) →
      ∀ c a, (l.foldl (primaryStep f) acc).1 = some c →
        (l.foldl (primaryStep f) acc).2 = some a → c ≠ a := by
  intro l
  induction l with
  | nil =>
    intro _ acc h1 h2 h3 c a hc ha
    exact h3 c a hc ha
  | cons k rest ih =>
    intro hnd acc h1 h2 h3 c a hc ha
    rcases List.nodup_cons.mp hnd with ⟨hk, hrest⟩
    simp only [List.foldl_cons] at hc ha
    refine ih hrest (primaryStep f acc k) ?_ ?_ ?_ c a hc ha
    · intro c2 hc2
      rcases primaryStep_cases f acc k with h | h | h <;> rw [h] at hc2
      · simp only [Prod.fst] at hc2
        have : k = c2 := Option.some.inj hc2
        rw [← this]
        exact hk
      · exact fun hm => (h1 c2 hc2) (List.mem_cons_of_mem _ hm)
      · exact fun hm => (h1 c2 hc2) (List.mem_cons_of_mem _ hm)
    · intro a2 ha2
      rcases primaryStep_cases f acc k with h | h | h <;> rw [h] at ha2
      · exact fun hm => (h2 a2 ha2) (List.mem_cons_of_mem _ hm)
      · simp only [Prod.snd] at ha2
        have : k = a2 := Option.some.inj ha2
        rw [← this]
        exact hk
      · exact fun hm => (h2 a2 ha2) (List.mem_cons_of_mem _ hm)
    · intro c2 a2 hc2 ha2
      rcases primaryStep_cases f acc k with h | h | h <;> rw [h] at hc2 ha2
      · simp only [Prod.fst, Prod.snd] at hc2 ha2
        have hkc : k = c2 := Option.some.inj hc2
        intro heq
        apply h2 a2 ha2
        rw [← heq, ← hkc]
        exact List.mem_cons_self k rest
      · simp only [Prod.fst, Prod.snd] at hc2 ha2
        have hka : k = a2 := Option.some.inj ha2
        intro heq
        apply h1 c2 hc2
        rw [heq, ← hka]
        exact List.mem_cons_self k rest
      · exact h3 c2 a2 hc2 ha2

/-- Once the running-maximum scan holds a candidate it keeps holding one. -/
theorem pick_fold_some_of_some (sc : Nat → Nat) (excl : Option Nat) :
    ∀ (l : List Nat) (b : Int × Option Nat) (m : Nat), b.2 = some m →
      ∃ m2, (l.foldl (pickStep sc excl) b).2 = some m2 := by
  intro l
  induction l with
  | nil =>
    intro b m hb
    exact ⟨m, hb⟩
  | cons k rest ih =>
    intro b m hb
    simp only [List.foldl_cons]
    unfold pickStep
    by_cases h : some k ≠ excl ∧ (sc k : Int) > b.1
    · rw [if_pos h]
      exact ih _ k rfl
    · rw [if_neg h]
      exact ih b m hb

/-- Any candidate produced by the running-maximum scan differs from the
excluded cluster, provided the initial candidate does. -/
theorem pick_fold_ne_excl (sc : Nat → Nat) (excl : Option Nat) :
    ∀ (l : List Nat) (b : Int × Option Nat),
      (∀ m, b.2 = some m → some m ≠ excl) →
      ∀ m, (l.foldl (pickStep sc excl) b).2 = some m → some m ≠ excl := by
  intro l
  induction l with
  | nil =>
    intro b hb m hm
    exact hb m hm
  | cons k rest ih =>
    intro b hb m hm
    simp only [List.foldl_cons] at hm
    refine ih (pickStep sc excl b k) ?_ m hm
    intro m2 hm2
    unfold pickStep at hm2
    by_cases h : some k ≠ excl ∧ (sc k : Int) > b.1
    · rw [if_pos h] at hm2
      simp only [Prod.snd] at hm2
      have : k = m2 := Option.some.inj hm2
      rw [← this]
      exact h.1
    · rw [if_neg h] at hm2
      exact hb m2 hm2

/-- The running-maximum scan finds a candidate as soon as an eligible cluster
exists in the list (or one was already held). -/
theorem pick_fold_some (sc : Nat → Nat) (excl : Option Nat) :
    ∀ (l : List Nat) (b : Int × Option Nat),
      ((∃ k, k ∈ l ∧ some k ≠ excl) ∨ ∃ m, b.2 = some m) →
      (b.2 = none → b.1 = -1) →
      ∃ m, (l.foldl (pickStep sc excl) b).2 = some m := by
  intro l
  induction l with
  | nil =>
    intro b hor hneg
    rcases hor with ⟨k, hk, _⟩ | ⟨m, hm⟩
    · exact absurd hk (List.not_mem_nil k)
    · exact ⟨m, hm⟩
  | cons k rest ih =>
    intro b hor hneg
    rcases hor with ⟨k0, hk0, hne⟩ | ⟨m, hm⟩
    · simp only [List.foldl_cons]
      rcases List.mem_cons.mp hk0 with heq | hmem
      · subst heq
        cases hb2 : b.2 with
        | some m =>
          have hstep : ∃ m2, (pickStep sc excl b k0).2 = some m2 := by
            unfold pickStep
            by_cases h : some k0 ≠ excl ∧ (sc k0 : Int) > b.1
            · rw [if_pos h]; exact ⟨k0, rfl⟩
            · rw [if_neg h]; exact ⟨m, hb2⟩
          obtain ⟨m2, hm2⟩ := hstep
          exact pick_fold_some_of_some sc excl rest _ m2 hm2
        | none =>
          have hb1 : b.1 = -1 := hneg hb2
          have hcond : some k0 ≠ excl ∧ (sc k0 : Int) > b.1 := by
            refine ⟨hne, ?_⟩
            rw [hb1]
            have := Int.natCast_nonneg (sc k0)
            omega
          unfold pickStep
          rw [if_pos hcond]
          exact pick_fold_some_of_some sc excl rest _ k0 rfl
      · by_cases h : some k ≠ excl ∧ (sc k : Int) > b.1
        · unfold pickStep
          rw [if_pos h]
          exact pick_fold_some_of_some sc excl rest _ k rfl
        · unfold pickStep
          rw [if_neg h]
          exact ih b (Or.inl ⟨k0, hmem, hne⟩) hneg
    · exact pick_fold_some_of_some sc excl (k :: rest) b m hm

/-- The max-score scan returns a candidate whenever an eligible key exists. -/
theorem pickMax_some (t : ScoreTable) (sc : Nat → Nat) (excl : Option Nat)
    (h : ∃ k, k ∈ t.keys ∧ some k ≠ excl) : ∃ m, pickMax t sc excl = some m :=
  pick_fold_some sc excl t.keys ((-1 : Int), none) (Or.inl h) (fun _ => rfl)

/-- The max-score scan never returns the excluded cluster. -/
theorem pickMax_ne_excl (t : ScoreTable) (sc : Nat → Nat) (excl : Option Nat)
    (m : Nat) (hm : pickMax t sc excl = some m) : some m ≠ excl := by
  refine pick_fold_ne_excl sc excl t.keys ((-1 : Int), none) ?_ m hm
  intro m2 h
  simp at h

/-- A duplicate-free list of length at least two contains an element different
from any given value. -/
theorem exists_ne_of_two_le {l : List Nat} (h2 : 2 ≤ l.length) (hnd : l.Nodup) (x : Nat) :
    ∃ k, k ∈ l ∧ k ≠ x := by
  cases l with
  | nil => simp at h2
  | cons a rest =>
    cases rest with
    | nil => simp at h2
    | cons b rest2 =>
      rcases List.nodup_cons.mp hnd with ⟨ha, _⟩
      have hab : a ≠ b := by
        intro h
        exact ha (h ▸ List.mem_cons_self b rest2)
      by_cases hax : a = x
      · refine ⟨b, List.mem_cons_of_mem a (List.mem_cons_self b rest2), ?_⟩
        rw [← hax]
        exact fun h => hab h.symm
      · exact ⟨a, List.mem_cons_self a (b :: rest2), hax⟩

/-- With at least two distinct clusters, the primary pass followed by the
max-score fallback always resolves both roles, to two different clusters. -/
theorem afterMaxScore_resolved (td : List Seg) (h2 : 2 ≤ clusterCount td) :
    ∃ c a, afterMaxScore td = (some c, some a) ∧ c ≠ a := by
  set t := computeSpeakerScores td with ht
  have hkeys : t.keys = clusterKeys td := computeSpeakerScores_keys td
  have hnd : t.keys.Nodup := by
    rw [hkeys]; exact firstAppearanceKeys_nodup _
  have hlen : 2 ≤ t.keys.length := by
    rw [hkeys]; exact h2
  rcases hp : primaryPass t with ⟨lc, la⟩
  have hdist : ∀ c a, lc = some c → la = some a → c ≠ a := by
    intro c a hc ha
    have hfold := primary_fold_distinct t.val t.keys hnd (none, none)
      (by intro c2 h; simp at h) (by intro a2 h; simp at h)
      (by intro c2 a2 h; simp at h) c a
    unfold primaryPass at hp
    exact hfold (by rw [hp]; exact hc) (by rw [hp]; exact ha)
  have hams : afterMaxScore td = maxScoreFallback t lc la := by
    show maxScoreFallback t (primaryPass t).1 (primaryPass t).2 = maxScoreFallback t lc la
    rw [hp]
  rw [hams]
  cases lc with
  | some c =>
    cases la with
    | some a =>
      refine ⟨c, a, ?_, hdist c a rfl rfl⟩
      simp [maxScoreFallback]
    | none =>
      have hex : ∃ k, k ∈ t.keys ∧ some k ≠ some c := by
        obtain ⟨k, hk, hne⟩ := exists_ne_of_two_le hlen hnd c
        exact ⟨k, hk, by simpa using hne⟩
      obtain ⟨m, hm⟩ := pickMax_some t (fun k => (t.val k).agent) (some c) hex
      have hne := pickMax_ne_excl t (fun k => (t.val k).agent) (some c) m hm
      refine ⟨c, m, ?_, ?_⟩
      · simp [maxScoreFallback, hm]
      · intro heq
        exact hne (by rw [heq])
  | none =>
    cases la with
    | some a =>
      have hex : ∃ k, k ∈ t.keys ∧ some k ≠ some a := by
        obtain ⟨k, hk, hne⟩ := exists_ne_of_two_le hlen hnd a
        exact ⟨k, hk, by simpa using hne⟩
      obtain ⟨m, hm⟩ := pickMax_some t (fun k => (t.val k).customer) (some a) hex
      have hne := pickMax_ne_excl t (fun k => (t.val k).customer) (some a) m hm
      refine ⟨m, a, ?_, ?_⟩
      · simp [maxScoreFallback, hm]
      · intro heq
        exact hne (by rw [heq])
    | none =>
      have hex1 : ∃ k, k ∈ t.keys ∧ some k ≠ (none : Option Nat) := by
        obtain ⟨k, hk, _⟩ := exists_ne_of_two_le hlen hnd 0
        exact ⟨k, hk, by simp⟩
      obtain ⟨m1, hm1⟩ := pickMax_some t (fun k => (t.val k).customer) none hex1
      have hex2 : ∃ k, k ∈ t.keys ∧ some k ≠ some m1 := by
        obtain ⟨k, hk, hne⟩ := exists_ne_of_two_le hlen hnd m1
        exact ⟨k, hk, by simpa using hne⟩
      obtain ⟨m2, hm2⟩ := pickMax_some t (fun k => (t.val k).agent) (some m1) hex2
      have hne := pickMax_ne_excl t (fun k => (t.val k).agent) (some m1) m2 hm2
      refine ⟨m1, m2, ?_, ?_⟩
      · simp [maxScoreFallback, hm1, hm2]
      · intro heq
        exact hne (by rw [heq])

/-- Claim C2: for every transcript spanning at least two distinct clusters,
the completed resolution chain assigns one cluster as customer and a different
cluster as agent (never both unresolved, never the same cluster). -/
theorem C2_resolver_two_distinct_roles (td : List Seg) (h2 : 2 ≤ clusterCount td) :
    ∃ c a, likelyRoles td = (some c, some a) ∧ c ≠ a := by
  obtain ⟨c, a, hq, hne⟩ := afterMaxScore_resolved td h2
  refine ⟨c, a, ?_, hne⟩
  unfold likelyRoles
  rw [hq]

/-- Witness for claim C2 on a concrete two-cluster transcript. -/
theorem C2_witness :
    2 ≤ clusterCount td1 ∧ ∃ c a, likelyRoles td1 = (some c, some a) ∧ c ≠ a :=
  ⟨by decide, C2_resolver_two_distinct_roles td1 (by decide)⟩

/-- Counterexample refuting claim C6: no transcript spanning exactly two
distinct clusters leaves both roles unresolved after the primary pass and the
max-score fallback, so the word-count fallback never performs the claimed
assignment. -/
theorem C6_counterexample :
    ¬ ∃ td : List Seg, clusterCount td = 2 ∧ afterMaxScore td = (none, none)
        ∧ likelyRoles td = wordCountFallback td := by
  rintro ⟨td, h2, hnone, _⟩
  obtain ⟨c, a, hq, _⟩ := afterMaxScore_resolved td (by omega)
  rw [hq] at hnone
  simp at hnone

/-- Claim C6 amended: on every transcript with exactly two distinct clusters
the primary pass plus max-score fallback already resolve both roles to two
distinct clusters, and the resolution chain returns that assignment, never
reaching the word-count fallback. -/
theorem C6_wordcount_unreachable (td : List Seg) (h2 : clusterCount td = 2) :
    ∃ c a, afterMaxScore td = (some c, some a) ∧ c ≠ a
      ∧ likelyRoles td = (some c, some a) := by
  obtain ⟨c, a, hq, hne⟩ := afterMaxScore_resolved td (by omega)
  refine ⟨c, a, hq, hne, ?_⟩
  unfold likelyRoles
  rw [hq]

/-- Witness for the amended claim C6 on a concrete two-cluster transcript. -/
theorem C6_witness :
    clusterCount td5 = 2
      ∧ ∃ c a, afterMaxScore td5 = (some c, some a) ∧ c ≠ a
          ∧ likelyRoles td5 = (some c, some a) :=
  ⟨by decide, C6_wordcount_unreachable td5 (by decide)⟩

/-! ## Primary pass versus the specification wording -/

/-- One code step of the primary pass (nested if/elif) agrees with the
claim-shaped step (two independent conditional assignments), because the two
conditions are mutually exclusive. -/
theorem primaryStep_eq_claim (f : Nat → Scores) (acc : Option Nat × Option Nat) (k : Nat) :
    primaryStep f acc k = primaryStepClaim f acc k := by
  rcases acc with ⟨lc, la⟩
  unfold primaryStep primaryStepClaim
  dsimp only
  by_cases h1 : (f k).customer > (f k).agent ∧ lc = none
  · rw [if_pos h1, if_pos h1]
    have h2 : ¬((f k).agent > (f k).customer ∧ la = none) := by
      rcases h1 with ⟨h1a, _⟩
      rintro ⟨h2a, _⟩
      omega
    rw [if_neg h2]
  · rw [if_neg h1, if_neg h1]
    by_cases h2 : (f k).agent > (f k).customer ∧ la = none
    · rw [if_pos h2, if_pos h2]
    · rw [if_neg h2, if_neg h2]

/-- Claim C4 amended: the primary pass visits the clusters in the score
table's first-appearance (dict insertion) order, assigning a visited cluster
customer when its customer tally exceeds its agent tally with no customer yet
chosen, and agent when its agent tally exceeds its customer tally with no
agent yet chosen. -/
theorem C4_primary_pass_characterisation (t : ScoreTable) :
    primaryPass t = primaryPassClaim t := by
  unfold primaryPass primaryPassClaim
  have h : ∀ (l : List Nat) (acc : Option Nat × Option Nat),
      l.foldl (primaryStep t.val) acc = l.foldl (primaryStepClaim t.val) acc := by
    intro l
    induction l with
    | nil => intro acc; rfl
    | cons k rest ih =>
      intro acc
      simp only [List.foldl_cons]
      rw [primaryStep_eq_claim, ih]
  exact h t.keys (none, none)

/-- Counterexample refuting claim C4 as stated: on td4 the clusters appear in
the order 2, 1 and both qualify as customer, so the code assigns cluster 2 as
customer, while the claimed ascending-id visit would assign cluster 1. -/
theorem C4_counterexample :
    primaryPass (computeSpeakerScores td4) = (some 2, none)
      ∧ primaryPassAsc (computeSpeakerScores td4) = (some 1, none)
      ∧ primaryPass (computeSpeakerScores td4) ≠ primaryPassAsc (computeSpeakerScores td4) :=
  ⟨by decide, by decide, by decide⟩

/-! ## Max-score fallback versus the specification wording -/

/-- The scan with an inline eligibility test equals the plain
running-maximum scan over the filtered key list. -/
theorem pick_fold_filter (sc : Nat → Nat) (excl : Option Nat) :
    ∀ (l : List Nat) (b : Int × Option Nat),
      l.foldl (pickStep sc excl) b =
        (l.filter (fun k => some k != excl)).foldl
          (fun best k => if (sc k : Int) > best.1 then ((sc k : Int), some k) else best) b := by
  intro l
  induction l with
  | nil => intro b; rfl
  | cons k rest ih =>
    intro b
    simp only [List.foldl_cons]
    by_cases hk : some k = excl
    · rw [List.filter_cons_of_neg (by simp [hk])]
      have hstep : pickStep sc excl b k = b := by
        unfold pickStep
        rw [if_neg]
        rintro ⟨hne, _⟩
        exact hne hk
      rw [hstep, ih]
    · rw [List.filter_cons_of_pos (by simp [hk])]
      simp only [List.foldl_cons]
      have hstep : pickStep sc excl b k
          = if (sc k : Int) > b.1 then ((sc k : Int), some k) else b := by
        unfold pickStep
        by_cases hgt : (sc k : Int) > b.1
        · rw [if_pos ⟨hk, hgt⟩, if_pos hgt]
        · rw [if_neg (fun h => hgt h.2), if_neg hgt]
      rw [hstep, ih]

/-- Once seeded with a first candidate, the integer-threshold scan computes
exactly the first-maximum of the remaining keys. -/
theorem pick_fold_max (sc : Nat → Nat) :
    ∀ (rest : List Nat) (m : Nat),
      rest.foldl (fun best k => if (sc k : Int) > best.1 then ((sc k : Int), some k) else best)
        ((sc m : Int), some m)
        = ((sc (rest.foldl (fun best k2 => if sc k2 > sc best then k2 else best) m) : Int),
           some (rest.foldl (fun best k2 => if sc k2 > sc best then k2 else best) m)) := by
  intro rest
  induction rest with
  | nil => intro m; rfl
  | cons k rest2 ih =>
    intro m
    simp only [List.foldl_cons]
    by_cases h : sc k > sc m
    · have h2 : ((sc m : Int) < (sc k : Int)) := by exact_mod_cast h
      rw [if_pos h2, if_pos h]
      exact ih k
    · have h2 : ¬((sc m : Int) < (sc k : Int)) := by
        intro hlt
        exact h (by exact_mod_cast hlt)
      rw [if_neg h2, if_neg h]
      exact ih m

/-- The code scan equals the claim-shaped pick: the first eligible cluster
attaining the maximal score. -/
theorem pickMax_eq_claim (t : ScoreTable) (sc : Nat → Nat) (excl : Option Nat) :
    pickMax t sc excl = pickByMaxFirst (eligKeys t excl) sc := by
  unfold pickMax pickByMaxFirst eligKeys
  rw [pick_fold_filter]
  generalize t.keys.filter (fun k => some k != excl) = fk
  cases fk with
  | nil => rfl
  | cons k rest =>
    simp only [List.foldl_cons]
    have h0 : ((-1 : Int) < (sc k : Int)) := by
      have := Int.natCast_nonneg (sc k)
      omega
    rw [if_pos h0, pick_fold_max]

/-- Claim C5 amended: each role still unresolved after the primary pass goes
to the cluster, among those not already assigned the other role, with the
highest score for the missing role, ties broken by the earliest-appearing
(first-inserted) eligible cluster - the code fallback equals this claim-shaped
fallback on every table. -/
theorem C5_max_score_fallback_characterisation (t : ScoreTable) (lc la : Option Nat) :
    maxScoreFallback t lc la = maxScoreFallbackClaim t lc la := by
  unfold maxScoreFallback maxScoreFallbackClaim
  by_cases h : lc = none ∨ la = none
  · rw [if_pos h, if_pos h]
    dsimp only
    rw [pickMax_eq_claim, pickMax_eq_claim]
  · rw [if_neg h, if_neg h]

/-- Counterexample refuting claim C5 as stated: on td5 both clusters tie on
every tally, the primary pass resolves nothing, and the code fallback picks
the first-appearing cluster 2 as customer, while a lowest-id tie-break would
pick cluster 1. -/
theorem C5_counterexample :
    primaryPass (computeSpeakerScores td5) = (none, none)
      ∧ maxScoreFallback (computeSpeakerScores td5) none none = (some 2, some 1)
      ∧ maxScoreFallbackSpec (computeSpeakerScores td5) none none = (some 1, some 2)
      ∧ maxScoreFallback (computeSpeakerScores td5) none none
          ≠ maxScoreFallbackSpec (computeSpeakerScores td5) none none :=
  ⟨by decide, by decide, by decide, by decide⟩

/-! ## Orchestrator theorems -/

/-- Counterexample refuting claim C1: with a 500 status on attempt 1 the
orchestrator returns the generic speaker-labelled fallback immediately, even
when attempt 2 would have returned an acceptable refinement. -/
theorem C1_counterexample :
    process_transcript_with_llm td1 (HttpOutcome.success 500 none)
        (HttpOutcome.success 200 (some "AGENT CUSTOMER refined")) = genericFallback td1
      ∧ genericFallback td1 ≠ "AGENT CUSTOMER refined" :=
  ⟨rfl, by decide⟩

/-- Claim C1 amended: a non-200 status on attempt 1 sends the orchestrator
directly to the generic speaker-labelled fallback, independently of what the
attempt-2 call would return; attempt 2 is reached only from a 200 response
lacking a role token. -/
theorem C1_non200_immediate_fallback (td : List Seg) (s : Nat) (b : Option String)
    (r2 r2b : HttpOutcome) (hs : s ≠ 200) :
    process_transcript_with_llm td (HttpOutcome.success s b) r2 = genericFallback td
      ∧ process_transcript_with_llm td (HttpOutcome.success s b) r2
          = process_transcript_with_llm td (HttpOutcome.success s b) r2b := by
  simp only [process_transcript_with_llm]
  rw [if_neg hs]
  exact ⟨rfl, by rw [if_neg hs]⟩

/-- Witness for the amended claim C1 at a concrete transcript and status. -/
theorem C1_witness :
    process_transcript_with_llm td3 (HttpOutcome.success 500 none) HttpOutcome.failure
      = genericFallback td3 :=
  (C1_non200_immediate_fallback td3 500 none HttpOutcome.failure HttpOutcome.failure
    (by decide)).1

/-- Counterexample refuting claim C3: an attempt-1 transport failure falls
back to the generic speaker-labelled transcript, which differs from the
composer-rendered locally-resolved transcript. -/
theorem C3_counterexample :
    process_transcript_with_llm td3 HttpOutcome.failure (HttpOutcome.success 200 (some "ok"))
        = genericFallback td3
      ∧ retry_with_modified_prompt td3 HttpOutcome.failure
          = create_fallback_transcript td3 (likelyRoles td3).1 (likelyRoles td3).2
      ∧ genericFallback td3
          ≠ create_fallback_transcript td3 (likelyRoles td3).1 (likelyRoles td3).2 :=
  ⟨rfl, rfl, by decide⟩

/-- Claim C3 amended: only on a non-200 status or a transport failure of the
refinement call on attempt 2 is the fallback output the composed,
locally-resolved role-labelled transcript; the same failures on attempt 1
fall back to the original transcript with generic speaker labels. -/
theorem C3_fallback_outputs (td : List Seg) (s : Nat) (b : Option String)
    (r2 : HttpOutcome) (hs : s ≠ 200) :
    retry_with_modified_prompt td (HttpOutcome.success s b)
        = create_fallback_transcript td (likelyRoles td).1 (likelyRoles td).2
      ∧ retry_with_modified_prompt td HttpOutcome.failure
          = create_fallback_transcript td (likelyRoles td).1 (likelyRoles td).2
      ∧ process_transcript_with_llm td (HttpOutcome.success s b) r2 = genericFallback td
      ∧ process_transcript_with_llm td HttpOutcome.failure r2 = genericFallback td := by
  refine ⟨?_, rfl, ?_, rfl⟩
  · simp only [retry_with_modified_prompt]
    rw [if_neg hs]
  · simp only [process_transcript_with_llm]
    rw [if_neg hs]

/-- Witness for the amended claim C3 at a concrete transcript and status. -/
theorem C3_witness :
    retry_with_modified_prompt td1 (HttpOutcome.success 503 none)
      = create_fallback_transcript td1 (likelyRoles td1).1 (likelyRoles td1).2 :=
  (C3_fallback_outputs td1 503 none HttpOutcome.failure (by decide)).1

/-- Claim C8: a 200 response on attempt 1 is accepted exactly when both role
tokens occur in its text; a missing token routes to the hint-annotated retry,
and a 200 response on attempt 2 is accepted with no token validation. -/
theorem C8_validation_and_retry_acceptance (td : List Seg) (text t2 : String)
    (r2 : HttpOutcome) :
    ((containsSub "AGENT" text && containsSub "CUSTOMER" text) = false →
        process_transcript_with_llm td (HttpOutcome.success 200 (some text)) r2
          = retry_with_modified_prompt td r2)
      ∧ ((containsSub "AGENT" text && containsSub "CUSTOMER" text) = true →
        process_transcript_with_llm td (HttpOutcome.success 200 (some text)) r2 = text)
      ∧ retry_with_modified_prompt td (HttpOutcome.success 200 (some t2)) = t2 := by
  refine ⟨?_, ?_, rfl⟩
  · intro h
    simp [process_transcript_with_llm, h]
  · intro h
    simp [process_transcript_with_llm, h]

/-- Witness for claim C8: a 200 body with no role tokens routes to the
retry. -/
theorem C8_witness :
    process_transcript_with_llm td1 (HttpOutcome.success 200 (some "no role tokens here"))
        HttpOutcome.failure
      = retry_with_modified_prompt td1 HttpOutcome.failure :=
  (C8_validation_and_retry_acceptance td1 "no role tokens here" "x" HttpOutcome.failure).1
    (by decide)

/-! ## Embedding extraction theorem -/

/-- Claim C9: the end time is clamped to min(end, duration) before the crop,
and a failing crop yields the 192-dimensional zero vector instead of an
error. -/
theorem C9_clamp_and_zero_fallback (start endT duration : ℚ)
    (crop : ℚ → ℚ → Option (List ℚ)) :
    (crop start (min duration endT) = none →
        segment_embedding start endT duration crop = List.replicate 192 0
          ∧ (segment_embedding start endT duration crop).length = 192
          ∧ ∀ x ∈ segment_embedding start endT duration crop, x = 0)
      ∧ (duration ≤ endT →
        segment_embedding start endT duration crop
          = segment_embedding start duration duration crop) := by
  constructor
  · intro h
    unfold segment_embedding
    rw [h]
    refine ⟨rfl, ?_, ?_⟩
    · show (List.replicate 192 (0 : ℚ)).length = 192
      rw [List.length_replicate]
    · intro x hx
      exact List.eq_of_mem_replicate hx
  · intro h
    unfold segment_embedding
    rw [min_eq_left h, min_self]

/-- Witness for claim C9 with a concrete overshooting end time and an
always-failing crop. -/
theorem C9_witness :
    segment_embedding 0 5 3 (fun _ _ => none) = List.replicate 192 0
      ∧ segment_embedding 0 5 3 (fun _ _ => none)
          = segment_embedding 0 3 3 (fun _ _ => none) :=
  ⟨((C9_clamp_and_zero_fallback 0 5 3 (fun _ _ => none)).1 rfl).1,
    (C9_clamp_and_zero_fallback 0 5 3 (fun _ _ => none)).2 (by norm_num)⟩

/-! ## Fallback labelling theorem -/

/-- Claim C10: with both roles resolved, a segment of any further cluster is
rendered in the fallback transcript with the literal role SPEAKER. -/
theorem C10_third_cluster_speaker_label (td : List Seg) (c a : Nat) (s : Seg)
    (hs : s ∈ td) (hc : speakerNum s.speaker ≠ c) (ha : speakerNum s.speaker ≠ a) :
    roleLine "SPEAKER" s ∈ fallbackLines td (some c) (some a)
      ∧ create_fallback_transcript td (some c) (some a)
          = joinLines (fallbackLines td (some c) (some a)) := by
  refine ⟨?_, rfl⟩
  unfold fallbackLines
  rw [if_neg (by simp)]
  refine List.mem_map.mpr ⟨s, hs, ?_⟩
  rw [if_neg (by simp [hc]), if_neg (by simp [ha]), if_neg (by simp), if_neg (by simp)]

/-- Witness for claim C10 on a three-cluster transcript with roles resolved to
clusters 1 and 2. -/
theorem C10_witness :
    roleLine "SPEAKER" (Seg.mk "SPEAKER 3" "0:00:06" "gamma")
      ∈ fallbackLines td10 (some 1) (some 2) :=
  (C10_third_cluster_speaker_label td10 1 2 (Seg.mk "SPEAKER 3" "0:00:06" "gamma")
    (by decide) (by decide) (by decide)).1

end CallDiar
